import Mathlib

/-!
Verification development for `pxtblocks/fields/field_asset.ts`: the
`FieldAssetEditor` Blockly field adapter and its `BlocklyTilemapChange`
event subclass.  The field's own logic is embedded shallowly; the host
collaborators (the shared tilemap project, the Blockly event machinery,
the field-editor view) are modelled as explicit state that the embedded
functions thread through.
-/

namespace FieldAsset

/-! ## Asset data model (mirrors the `pxt.Asset` tagged union) -/

/-- A bitmap's raw data (`pxt.sprite.BitmapData`): width, height and pixels. -/
structure BitmapData where
  width : Nat
  height : Nat
  pixels : List Nat
deriving DecidableEq, Repr

/-- One tile of a tileset (`pxt.Tile`, restricted to what the field reads:
its id and its bitmap). -/
structure TileRef where
  id : String
  bitmap : BitmapData
deriving DecidableEq, Repr

/-- A tileset: tile width plus the list of tiles (`pxt.TileSet`). -/
structure TileSet where
  tileWidth : Nat
  tiles : List TileRef
deriving DecidableEq, Repr

/-- Tilemap data (`pxt.sprite.TilemapData`, restricted to the parts the
field touches: the tileset and the project references). -/
structure TilemapData where
  tileset : TileSet
  projectReferences : List String
deriving DecidableEq, Repr

/-- The four asset kinds the field handles (`pxt.AssetType`). -/
inductive AssetType where
  | image
  | animation
  | tile
  | tilemap
deriving DecidableEq, Repr

/-- The type-specific payload of an asset: images and tiles carry a bitmap,
animations a frame list and interval, tilemaps their tilemap data. -/
inductive AssetPayload where
  | image (bitmap : BitmapData)
  | tile (bitmap : BitmapData)
  | animation (frames : List BitmapData) (interval : Nat)
  | tilemap (data : TilemapData)
deriving DecidableEq, Repr

/-- Asset metadata (`pxt.AssetMetadata`): `none` models a JS field that is
`undefined`. -/
structure AssetMeta where
  blockIDs : Option (List String)
  displayName : Option String
deriving DecidableEq, Repr

/-- An asset of the shared store (`pxt.Asset`): id, payload, metadata.
`meta = none` models an asset whose `meta` object is `undefined`. -/
structure Asset where
  id : String
  payload : AssetPayload
  meta : Option AssetMeta
deriving DecidableEq, Repr

/-- The `type` discriminant of an asset, as read by the field's switches. -/
def Asset.type (a : Asset) : AssetType :=
  match a.payload with
  | .image _ => .image
  | .tile _ => .tile
  | .animation _ _ => .animation
  | .tilemap _ => .tilemap

/-! ## JavaScript string helpers used by the field -/

/-- Decimal digit value of a character, if any. -/
def digitVal? (c : Char) : Option Nat :=
  if '0' ≤ c ∧ c ≤ '9' then some (c.toNat - '0'.toNat) else none

/-- Hexadecimal digit value of a character, if any. -/
def hexVal? (c : Char) : Option Nat :=
  if '0' ≤ c ∧ c ≤ '9' then some (c.toNat - '0'.toNat)
  else if 'a' ≤ c ∧ c ≤ 'f' then some (c.toNat - 'a'.toNat + 10)
  else if 'A' ≤ c ∧ c ≤ 'F' then some (c.toNat - 'A'.toNat + 10)
  else none

/-- The longest prefix of characters that are digits under `val?`, mapped
to their values. -/
def leadingDigits (val? : Char → Option Nat) : List Char → List Nat
  | [] => []
  | c :: cs =>
    match val? c with
    | none => []
    | some d => d :: leadingDigits val? cs

/-- Accumulate the longest prefix of digits (in the given base) into a
number; `none` when there is no leading digit at all. -/
def takeDigits (val? : Char → Option Nat) (base : Nat) (cs : List Char) :
    Option Nat :=
  match leadingDigits val? cs with
  | [] => none
  | ds => some (ds.foldl (fun acc d => acc * base + d) 0)

/-- JavaScript `parseInt(s)` with no radix argument: skip leading
whitespace, read an optional sign, detect a `0x`/`0X` prefix (hex),
then parse the longest digit prefix; `none` models `NaN`. -/
def jsParseInt (s : String) : Option Int :=
  let cs := s.data.dropWhile (fun c => c = ' ' ∨ c = '\t' ∨ c = '\n' ∨ c = '\r')
  let (sign, cs) : Int × List Char :=
    match cs with
    | '-' :: rest => (-1, rest)
    | '+' :: rest => (1, rest)
    | _ => (1, cs)
  match cs with
  | '0' :: 'x' :: rest => (takeDigits hexVal? 16 rest).map (fun n => sign * n)
  | '0' :: 'X' :: rest => (takeDigits hexVal? 16 rest).map (fun n => sign * n)
  | _ => (takeDigits digitVal? 10 cs).map (fun n => sign * n)

/-- ASCII lowercasing, modelling JS `toLowerCase` on the option strings. -/
def asciiLower (s : String) : String :=
  String.mk (s.data.map fun c =>
    if 'A' ≤ c ∧ c ≤ 'Z' then Char.ofNat (c.toNat + 32) else c)

/-- JS `String.prototype.indexOf` for a single-character needle: the index
of the first occurrence, or `-1`. -/
def jsIndexOfChar (s : String) (c : Char) : Int :=
  match s.data.findIdx? (· = c) with
  | some i => (i : Int)
  | none => -1

/-- JS `String.prototype.substr(start, length)` for `start = 0`: a negative
length yields the empty string. -/
def jsSubstrFrom0 (s : String) (len : Int) : String :=
  if len ≤ 0 then "" else String.mk (s.data.take len.toNat)

/-! ## Field editor options (`parseFieldOptions`) -/

/-- The raw options object (`FieldAssetEditorOptions`): each field is an
optional string, `none` modelling a JS `undefined` property. -/
structure FieldAssetEditorOptions where
  initWidth : Option String
  initHeight : Option String
  disableResize : Option String
deriving DecidableEq, Repr

/-- The parsed options (`ParsedFieldAssetEditorOptions`). -/
structure ParsedFieldAssetEditorOptions where
  initWidth : Int
  initHeight : Int
  disableResize : Bool
deriving DecidableEq, Repr

/-- The `withDefault` helper nested in `parseFieldOptions`: `parseInt` the
raw string, fall back to the default on `NaN` (and on a missing string,
since `parseInt(undefined)` is `NaN`). -/
def withDefault (raw : Option String) (d : Int) : Int :=
  match raw with
  | none => d
  | some s => (jsParseInt s).getD d

/-- `FieldAssetEditor.parseFieldOptions`, with `opts = none` modelling a
missing options object. -/
def parseFieldOptions (opts : Option FieldAssetEditorOptions) :
    ParsedFieldAssetEditorOptions :=
  let parsed : ParsedFieldAssetEditorOptions :=
    { initWidth := 16, initHeight := 16, disableResize := false }
  match opts with
  | none => parsed
  | some o =>
    let parsed :=
      -- `if (opts.disableResize)`: truthy means present and non-empty
      match o.disableResize with
      | some s =>
        if s ≠ "" then
          { parsed with disableResize := asciiLower s = "true" ∨ s = "1" }
        else parsed
      | none => parsed
    { parsed with
      initWidth := withDefault o.initWidth parsed.initWidth,
      initHeight := withDefault o.initHeight parsed.initHeight }

/-! ## The shared tilemap project (`pxt.react.getTilemapProject()`)

The project is a host collaborator (it lives in pxtlib, outside this
file); it is modelled as an explicit record that every field operation
threads through, with the operations the field uses: asset lookup,
update, removal and duplication, undo/redo with a revision counter, and
change listeners keyed by asset type and owner. -/

/-- The shared asset store.  `listeners` records
`(asset type, asset id, listener owner)` registrations. -/
structure Project where
  assets : List Asset
  revision : Nat
  undoStack : List (List Asset)
  redoStack : List (List Asset)
  listeners : List (AssetType × String × String)
deriving DecidableEq, Repr

/-- `project.lookupAsset(type, id)`. -/
def Project.lookupAsset (p : Project) (ty : AssetType) (id : String) :
    Option Asset :=
  p.assets.find? (fun a => a.type == ty && a.id == id)

/-- `project.updateAsset(asset)`: write the asset into the store (replacing
any asset of the same type and id) and advance the revision. -/
def Project.updateAsset (p : Project) (a : Asset) : Project :=
  if p.assets.any (fun b => b.type == a.type && b.id == a.id) then
    { p with
      assets := p.assets.map (fun b =>
        if b.type == a.type && b.id == a.id then a else b),
      revision := p.revision + 1 }
  else
    { p with assets := p.assets ++ [a], revision := p.revision + 1 }

/-- `project.removeAsset(asset)`. -/
def Project.removeAsset (p : Project) (a : Asset) : Project :=
  { p with
    assets := p.assets.filter (fun b => !(b.type == a.type && b.id == a.id)),
    revision := p.revision + 1 }

/-- A store id distinct from every id in the store and from the given
asset's id (the host generates a unique id for a duplicate; the model
makes one strictly longer than all ids in sight). -/
def freshId (p : Project) (a : Asset) : String :=
  String.mk (List.replicate
    ((a.id :: p.assets.map Asset.id).foldl (fun m s => max m s.length) 0 + 1)
    'a')

/-- `project.duplicateAsset(asset)`: insert a copy under a fresh id and
return it. -/
def Project.duplicateAsset (p : Project) (a : Asset) : Asset × Project :=
  let d : Asset := { a with id := freshId p a }
  (d, { p with assets := p.assets ++ [d], revision := p.revision + 1 })

/-- `project.pushUndo()`: snapshot the store onto the undo stack. -/
def Project.pushUndo (p : Project) : Project :=
  { p with undoStack := p.assets :: p.undoStack, redoStack := [] }

/-- `project.undo()`: restore the last snapshot, if any. -/
def Project.undo (p : Project) : Project :=
  match p.undoStack with
  | [] => p
  | s :: rest =>
    { p with
      assets := s, undoStack := rest, redoStack := p.assets :: p.redoStack,
      revision := p.revision + 1 }

/-- `project.redo()`: re-apply the last undone snapshot, if any. -/
def Project.redo (p : Project) : Project :=
  match p.redoStack with
  | [] => p
  | s :: rest =>
    { p with
      assets := s, redoStack := rest, undoStack := p.assets :: p.undoStack,
      revision := p.revision + 1 }

/-- `project.removeChangeListener(assetType, listener)`. -/
def Project.removeChangeListener (p : Project) (ty : AssetType)
    (owner : String) : Project :=
  { p with
    listeners := p.listeners.filter (fun l => !(l.1 == ty && l.2.2 == owner)) }

/-- `project.addChangeListener(asset, listener)`. -/
def Project.addChangeListener (p : Project) (a : Asset) (owner : String) :
    Project :=
  { p with listeners := p.listeners ++ [(a.type, a.id, owner)] }

/-! ## Preview rendering -/

/-- Preview width: 32, chosen so default sprite sizes scale without
anti-aliasing. -/
def PREVIEW_WIDTH : Nat := 32

/-- The image URI shown in the field's preview.  `bitmapToImageURI` and
`tilemapToImageURI` are external renderers; the model keeps them as
injective constructors recording their inputs. -/
inductive DataURI where
  | ofBitmap (b : BitmapData) (width : Nat) (lightMode : Bool)
  | ofTilemap (t : TilemapData) (width : Nat) (lightMode : Bool)
deriving DecidableEq, Repr

/-- `bitmapToImageURI(bitmap, width, lightMode)` (external renderer). -/
def bitmapToImageURI (b : BitmapData) (width : Nat) (lightMode : Bool) :
    DataURI :=
  .ofBitmap b width lightMode

/-- `tilemapToImageURI(data, width, lightMode)` (external renderer). -/
def tilemapToImageURI (t : TilemapData) (width : Nat) (lightMode : Bool) :
    DataURI :=
  .ofTilemap t width lightMode

/-- The data URI `redrawPreview` computes for an asset: from the bitmap
for images and tiles, from the first frame for animations, from the
tilemap data for tilemaps.  `none` models the crash on an animation with
no frames (`frames[0]` is `undefined`). -/
def previewOf (lightMode : Bool) (a : Asset) : Option DataURI :=
  match a.payload with
  | .image b => some (bitmapToImageURI b PREVIEW_WIDTH lightMode)
  | .tile b => some (bitmapToImageURI b PREVIEW_WIDTH lightMode)
  | .animation frames _ =>
    (frames.head?).map (fun b => bitmapToImageURI b PREVIEW_WIDTH lightMode)
  | .tilemap d => some (tilemapToImageURI d PREVIEW_WIDTH lightMode)

/-! ## Field state -/

/-- The state of one `FieldAssetEditor` instance.  `fid` identifies the
field as a listener owner; `sourceBlock` is the id of the attached block
(`none` when detached); `blockData` is the per-block data slot accessed
through `getBlockData`/`setBlockData`, with `""` modelling empty/null;
`preview` records what `redrawPreview` last rendered (`none` for grey
blocks and missing assets). -/
structure FieldState where
  assetType : AssetType
  fid : String
  name : String
  sourceBlock : Option String
  isInFlyout : Bool
  isGreyBlock : Bool
  valueText : String
  blockData : String
  asset : Option Asset
  pendingEdit : Bool
  undoRedoState : Option String
  lightMode : Bool
  preview : Option DataURI
deriving DecidableEq, Repr

/-- `FieldAssetEditor.redrawPreview`: recompute the preview from the
current asset (grey blocks render text instead of a preview image). -/
def redrawPreview (f : FieldState) : FieldState :=
  if f.isGreyBlock then { f with preview := none }
  else { f with preview := f.asset.bind (previewOf f.lightMode) }

/-- `FieldAssetEditor.getValue`: the unescaped decompiled text for grey
blocks, otherwise the subclass's `getValueText()` (a parameter: the
subclass serializes the current asset). -/
def getValue (unesc : String → String) (getValueText : Option Asset → String)
    (f : FieldState) : String :=
  if f.isGreyBlock then unesc f.valueText else getValueText f.asset

/-- `FieldAssetEditor.getDisplayText_` (used only for grey blocks):
truncate the unescaped text at the first `(` and append `"(...)"`. -/
def getDisplayText (unesc : String → String) (f : FieldState) : String :=
  let text := unesc f.valueText
  jsSubstrFrom0 text (jsIndexOfChar text '(') ++ "(...)"

/-- JS truthiness of `meta.displayName`: absent or empty means the asset
has no display name.  (`isTemporaryAsset` reads `meta.displayName`; its
callers ensure `meta` exists first.) -/
def displayNameFalsy (a : Asset) : Bool :=
  match a.meta with
  | none => true
  | some m =>
    match m.displayName with
    | none => true
    | some s => s == ""

/-- `FieldAssetEditor.isTemporaryAsset`: an asset is temporary when it
exists and has no `meta.displayName`. -/
def FieldState.isTemporaryAsset (f : FieldState) : Bool :=
  match f.asset with
  | none => false
  | some a => displayNameFalsy a

/-- The asset's `meta.blockIDs`, defaulted to `[]`. -/
def blockIDsOf (a : Asset) : List String :=
  (a.meta.bind (fun m => m.blockIDs)).getD []

/-- `this.asset.meta = {}` / `this.asset.meta.blockIDs = []` when absent. -/
def ensureMeta (a : Asset) : Asset :=
  let m := a.meta.getD ⟨none, none⟩
  { a with meta := some { m with blockIDs := some (m.blockIDs.getD []) } }

/-- Overwrite the asset's `meta.blockIDs`. -/
def setBlockIDs (a : Asset) (ids : List String) : Asset :=
  let m := a.meta.getD ⟨none, none⟩
  { a with meta := some { m with blockIDs := some ids } }

/-- `FieldAssetEditor.updateAssetMeta`.  `ws` is the set of live block ids
in the workspace (`getBlockById` succeeds exactly on members). -/
def updateAssetMeta (ws : List String) (f : FieldState) (p : Project) :
    FieldState × Project :=
  match f.asset with
  | none => (f, p)
  | some a0 =>
    let a := ensureMeta a0
    match f.sourceBlock with
    | none => ({ f with asset := some a }, p.updateAsset a)
    | some sb =>
      let ids := blockIDsOf a
      -- `indexOf(sourceBlock.id) === -1` is the membership test
      if sb ∈ ids then
        ({ f with asset := some a, blockData := a.id }, p.updateAsset a)
      else if ids ≠ [] ∧ displayNameFalsy a ∧ ids.any (ws.contains ·) then
        -- the temporary asset is already used by a live block: clone it
        let dp := p.duplicateAsset a
        let d := setBlockIDs dp.1 [sb]
        ({ f with asset := some d, blockData := d.id }, dp.2.updateAsset d)
      else
        let a' := setBlockIDs a (ids ++ [sb])
        ({ f with asset := some a', blockData := a'.id }, p.updateAsset a')

/-- `FieldAssetEditor.updateAssetListener`: drop this field's listener for
its asset type, then re-register against the current asset, if any. -/
def updateAssetListener (f : FieldState) (p : Project) : Project :=
  let p1 := p.removeChangeListener f.assetType f.fid
  match f.asset with
  | none => p1
  | some a => p1.addChangeListener a f.fid

/-- `FieldAssetEditor.assetChangeListener`: ignore the notification while
an edit is pending; otherwise re-read the asset from the store by the
stored block data id (when non-empty) and redraw the preview. -/
def assetChangeListener (f : FieldState) (p : Project) : FieldState :=
  if f.pendingEdit then f
  else
    let f1 :=
      if f.blockData ≠ "" then
        { f with asset := p.lookupAsset f.assetType f.blockData }
      else f
    redrawPreview f1

/-- `FieldAssetEditor.parseValueText`: resolve the field's asset from the
store by the stored block data id, or detach from the old asset and
create a fresh one from the decompiled text. -/
def parseValueText (unesc : String → String)
    (createNewAsset : String → Asset) (ws : List String)
    (f : FieldState) (p : Project) (newText : String) :
    FieldState × Project :=
  let newText := unesc newText
  match f.sourceBlock with
  | none => (f, p)
  | some sb =>
    if f.isInFlyout then (f, p)
    else
      let (f1, p1) :=
        match p.lookupAsset f.assetType f.blockData with
        | some existing => ({ f with asset := some existing }, p)
        | none =>
          let f1 := { f with blockData := "" }
          match f1.asset with
          | some a =>
            match a.meta.bind (fun m => m.blockIDs) with
            | some ids =>
              let a' := setBlockIDs a (ids.filter (· ≠ sb))
              ({ f1 with asset := some (createNewAsset newText) },
                p.updateAsset a')
            | none => ({ f1 with asset := some (createNewAsset newText) }, p)
          | none => ({ f1 with asset := some (createNewAsset newText) }, p)
      let (f2, p2) := updateAssetMeta ws f1 p1
      (f2, updateAssetListener f2 p2)

/-- `FieldAssetEditor.disposeOfTemporaryAsset`. -/
def disposeOfTemporaryAsset (f : FieldState) (p : Project) :
    FieldState × Project :=
  if f.isTemporaryAsset then
    match f.asset with
    | some a => ({ f with blockData := "", asset := none }, p.removeAsset a)
    | none => (f, p)
  else (f, p)

/-- `FieldAssetEditor.onDispose`: dispose of a temporary asset and drop the
change listener from the shared project. -/
def onDispose (f : FieldState) (p : Project) : FieldState × Project :=
  let (f1, p1) := disposeOfTemporaryAsset f p
  (f1, p1.removeChangeListener f.assetType f.fid)

/-! ## Opening the editor (`showEditor_`) -/

/-- `project.getProjectTiles(tileWidth, true)`: the tile assets of the
store whose bitmap has the given width. -/
def getProjectTiles (p : Project) (w : Nat) : List TileRef :=
  p.assets.filterMap (fun a =>
    match a.payload with
    | .tile b => if b.width == w then some ⟨a.id, b⟩ else none
    | _ => none)

/-- The tilemap-branch loop of `showEditor_`: reset `projectReferences`,
then for each project tile add it to the tileset when missing and record
it as a project reference when `project.isAssetUsed` holds for it
(`isAssetUsed` is external; the model takes it as a parameter). -/
def tilemapMerge (isAssetUsed : TileRef → Bool) (allTiles : List TileRef)
    (d : TilemapData) : TilemapData :=
  allTiles.foldl
    (fun acc tile =>
      let ts :=
        if acc.tileset.tiles.any (fun t => t.id == tile.id) then acc.tileset
        else { acc.tileset with tiles := acc.tileset.tiles ++ [tile] }
      let refs :=
        if isAssetUsed tile then acc.projectReferences ++ [tile.id]
        else acc.projectReferences
      { tileset := ts, projectReferences := refs })
    { d with projectReferences := [] }

/-- The synchronous part of `FieldAssetEditor.showEditor_`, up to showing
the field editor view: `none` models the JS `TypeError` on a non-grey
field with no asset; otherwise the result carries the editor kind chosen
for the asset's type (`none` when the grey guard returned early), the
field state (the tilemap branch merges project tiles into the asset's
tileset), and the project after `pushUndo`. -/
def showEditor (isAssetUsed : TileRef → Bool) (f : FieldState)
    (p : Project) : Option (Option String × FieldState × Project) :=
  if f.isGreyBlock then some (none, f, p)
  else
    match f.asset with
    | none => none
    | some a =>
      let (kind, f1) :=
        match a.payload with
        | .image _ => (some "image-editor", f)
        | .tile _ => (some "image-editor", f)
        | .animation _ _ => (some "animation-editor", f)
        | .tilemap d =>
          let allTiles := getProjectTiles p d.tileset.tileWidth
          let d' := tilemapMerge isAssetUsed allTiles d
          (some "tilemap-editor",
            { f with asset := some { a with payload := .tilemap d' } })
      some (kind, f1, p.pushUndo)

/-! ## Blockly events and the hide callback -/

/-- A Blockly event field value: JS `null`, a string, or a number. -/
inductive EventValue where
  | null
  | str (s : String)
  | num (n : Nat)
deriving DecidableEq, Repr

/-- A `BlocklyTilemapChange` event: the base `BlockChange` fields plus the
two project revisions.  `recordUndo` is `true` on construction (the
Blockly default) unless explicitly cleared. -/
structure BlocklyTilemapChange where
  blockId : String
  element : String
  name : String
  oldValue : EventValue
  newValue : EventValue
  oldRevision : Nat
  newRevision : Nat
  recordUndo : Bool
deriving DecidableEq, Repr

/-- `BlocklyTilemapChange.isNull`: the base `BlockChange.isNull()` is
external, so the model takes its verdict as a parameter. -/
def tilemapChangeIsNull (baseIsNull : Bool) (ev : BlocklyTilemapChange) :
    Bool :=
  (ev.oldRevision == ev.newRevision) && baseIsNull

/-- `BlocklyTilemapChange.run(forward)`: redo (forward) or undo (backward)
on the shared project, run the base `BlockChange` (external, modelled as a
parameter acting on the Blockly workspace state `σ`), then fire a fresh
`tilemap-revision` event carrying the project's current revision, with
`recordUndo` cleared.  The result is the new project, the new workspace
state, and the list of events fired. -/
def tilemapChangeRun {σ : Type} (baseRun : Bool → σ → σ)
    (ev : BlocklyTilemapChange) (forward : Bool) (p : Project) (bs : σ) :
    Project × σ × List BlocklyTilemapChange :=
  let p1 := if forward then p.redo else p.undo
  let bs1 := baseRun forward bs
  let fresh : BlocklyTilemapChange :=
    { blockId := ev.blockId, element := "tilemap-revision",
      name := "revision", oldValue := .null, newValue := .num p1.revision,
      oldRevision := 0, newRevision := 0, recordUndo := false }
  (p1, bs1, [fresh])

/-- The `fv.onHide` callback registered by `showEditor_`.  Parameters model
the host pieces it calls: `assetEquals` is `pxt.assetEquals` (applied to
the field's possibly-absent asset), `getValueText` the subclass
serializer, `unesc` is `pxt.Util.htmlUnescape`, `persistentData` the
editor view's persistent data, `eventsEnabled` is
`Blockly.Events.isEnabled()`, `ws` the live block ids, and `result` is
`fv.getResult()` (`none` when the editor produced nothing).  Returns the
new field state, the new project, and the events fired. -/
def onHide (assetEquals : Option Asset → Asset → Bool)
    (getValueText : Option Asset → String) (unesc : String → String)
    (persistentData : String) (eventsEnabled : Bool) (ws : List String)
    (result : Option Asset) (f : FieldState) (p : Project) :
    FieldState × Project × List BlocklyTilemapChange :=
  match result with
  | none => (f, p, [])
  | some r =>
    let old := getValue unesc getValueText f
    if assetEquals f.asset r then (f, p, [])
    else
      let f1 := { f with pendingEdit := true, asset := some r }
      let lastRevision := p.revision
      -- onEditorClose is a no-op in the base class
      let p1 := updateAssetListener f1 p
      let fp := updateAssetMeta ws f1 p1
      let f2 := fp.1
      let p2 := fp.2
      let f3 := redrawPreview f2
      let f4 := { f3 with undoRedoState := some persistentData }
      let events :=
        match f4.sourceBlock with
        | some sb =>
          if eventsEnabled then
            [{ blockId := sb, element := "field", name := f.name,
               oldValue := .str old,
               newValue := .str (getValue unesc getValueText f4),
               oldRevision := lastRevision, newRevision := p2.revision,
               recordUndo := true }]
          else []
        | none => []
      ({ f4 with pendingEdit := false }, p2, events)

/-! ## Helper lemmas -/

lemma ensureMeta_id (a : Asset) : (ensureMeta a).id = a.id := by
  cases a with
  | mk id payload meta => cases meta <;> rfl

lemma ensureMeta_payload (a : Asset) : (ensureMeta a).payload = a.payload := by
  cases a with
  | mk id payload meta => cases meta <;> rfl

lemma ensureMeta_type (a : Asset) : (ensureMeta a).type = a.type := by
  simp [Asset.type, ensureMeta_payload]

lemma blockIDsOf_ensureMeta (a : Asset) :
    blockIDsOf (ensureMeta a) = blockIDsOf a := by
  cases a with
  | mk id payload meta =>
    cases meta with
    | none => rfl
    | some m => cases m with
      | mk b d => cases b <;> rfl

lemma ensureMeta_blockIDs (a : Asset) :
    ∃ m, (ensureMeta a).meta = some m ∧ m.blockIDs = some (blockIDsOf a) := by
  cases a with
  | mk id payload meta =>
    cases meta with
    | none => exact ⟨_, rfl, rfl⟩
    | some m => cases m with
      | mk b d => cases b <;> exact ⟨_, rfl, rfl⟩

lemma displayNameFalsy_ensureMeta (a : Asset) :
    displayNameFalsy (ensureMeta a) = displayNameFalsy a := by
  cases a with
  | mk id payload meta =>
    cases meta with
    | none => rfl
    | some m => cases m with
      | mk b d => cases b <;> rfl

lemma setBlockIDs_id (a : Asset) (ids : List String) :
    (setBlockIDs a ids).id = a.id := by
  cases a with
  | mk id payload meta => cases meta <;> rfl

lemma setBlockIDs_payload (a : Asset) (ids : List String) :
    (setBlockIDs a ids).payload = a.payload := by
  cases a with
  | mk id payload meta => cases meta <;> rfl

lemma setBlockIDs_type (a : Asset) (ids : List String) :
    (setBlockIDs a ids).type = a.type := by
  simp [Asset.type, setBlockIDs_payload]

lemma blockIDsOf_setBlockIDs (a : Asset) (ids : List String) :
    blockIDsOf (setBlockIDs a ids) = ids := by
  cases a with
  | mk id payload meta => cases meta <;> rfl

lemma setBlockIDs_meta (a : Asset) (ids : List String) :
    ∃ m, (setBlockIDs a ids).meta = some m ∧ m.blockIDs = some ids := by
  cases a with
  | mk id payload meta =>
    cases meta with
    | none => exact ⟨_, rfl, rfl⟩
    | some m => exact ⟨_, rfl, rfl⟩

lemma previewOf_congr (light : Bool) (a b : Asset)
    (h : a.payload = b.payload) : previewOf light a = previewOf light b := by
  unfold previewOf
  rw [h]

/-- `find?` over a list where every hit was replaced by `a` returns `a`
as soon as there was a hit. -/
lemma find?_map_replace {α : Type} (pred : α → Bool) (a : α)
    (hpa : pred a = true) :
    ∀ l : List α, l.any pred = true →
      (l.map (fun b => if pred b then a else b)).find? pred = some a := by
  intro l
  induction l with
  | nil => intro h; simp at h
  | cons x xs ih =>
    intro h
    by_cases hx : pred x = true
    · simp [hx, List.find?_cons_of_pos, hpa]
    · simp only [List.any_cons, hx, Bool.false_or] at h
      simp only [List.map_cons, if_neg hx, List.find?_cons_of_neg _ hx]
      exact ih h

/-- `find?` falls through an unmatched list onto an appended hit. -/
lemma find?_append_of_not_any {α : Type} (pred : α → Bool) (a : α)
    (hpa : pred a = true) :
    ∀ l : List α, l.any pred = false →
      (l ++ [a]).find? pred = some a := by
  intro l
  induction l with
  | nil => simp [List.find?_cons_of_pos, hpa]
  | cons x xs ih =>
    intro h
    simp only [List.any_cons, Bool.or_eq_false_iff] at h
    have hx : ¬ pred x = true := by simp [h.1]
    rw [List.cons_append, List.find?_cons_of_neg _ hx]
    exact ih h.2

/-- After `updateAsset a`, looking `a` up by its own type and id yields
exactly `a`. -/
lemma lookupAsset_updateAsset (p : Project) (a : Asset) :
    (p.updateAsset a).lookupAsset a.type a.id = some a := by
  unfold Project.updateAsset Project.lookupAsset
  by_cases h : p.assets.any (fun b => b.type == a.type && b.id == a.id) = true
  · simp only [h, if_true]
    exact find?_map_replace _ a (by simp) p.assets h
  · simp only [Bool.not_eq_true] at h
    simp only [h, if_false]
    exact find?_append_of_not_any _ a (by simp) p.assets h

lemma le_foldl_maxlen (l : List String) (init : Nat) :
    init ≤ l.foldl (fun m s => max m s.length) init := by
  induction l generalizing init with
  | nil => exact le_refl _
  | cons x xs ih =>
    exact le_trans (le_max_left init x.length) (ih (max init x.length))

lemma mem_le_foldl_maxlen :
    ∀ (l : List String) (init : Nat) (s : String), s ∈ l →
      s.length ≤ l.foldl (fun m t => max m t.length) init := by
  intro l
  induction l with
  | nil => intro init s hs; cases hs
  | cons x xs ih =>
    intro init s hs
    rcases List.mem_cons.mp hs with h | h
    · subst h
      exact le_trans (le_max_right init s.length) (le_foldl_maxlen xs _)
    · exact ih _ s h

lemma freshId_length (p : Project) (a : Asset) :
    (freshId p a).length =
      (a.id :: p.assets.map Asset.id).foldl (fun m s => max m s.length) 0
        + 1 := by
  unfold freshId
  show (List.replicate _ 'a').length = _
  exact List.length_replicate _ _

lemma freshId_ne_self (p : Project) (a : Asset) : a.id ≠ freshId p a := by
  intro h
  have hlen : a.id.length = (freshId p a).length := by rw [h]
  rw [freshId_length] at hlen
  have : a.id.length ≤
      (a.id :: p.assets.map Asset.id).foldl (fun m s => max m s.length) 0 :=
    mem_le_foldl_maxlen _ 0 _ (List.mem_cons_self _ _)
  omega

lemma freshId_ne_store (p : Project) (a : Asset) (b : Asset)
    (hb : b ∈ p.assets) : b.id ≠ freshId p a := by
  intro h
  have hlen : b.id.length = (freshId p a).length := by rw [h]
  rw [freshId_length] at hlen
  have : b.id.length ≤
      (a.id :: p.assets.map Asset.id).foldl (fun m s => max m s.length) 0 :=
    mem_le_foldl_maxlen _ 0 _
      (List.mem_cons_of_mem _ (List.mem_map_of_mem Asset.id hb))
  omega

lemma freshId_pos (p : Project) (a : Asset) : freshId p a ≠ "" := by
  intro h
  have := freshId_length p a
  rw [h] at this
  simp at this

lemma find?_append_singleton_neg {α : Type} (pred : α → Bool) (d : α)
    (hd : pred d = false) :
    ∀ l : List α, (l ++ [d]).find? pred = l.find? pred := by
  intro l
  induction l with
  | nil => simp [List.find?, hd]
  | cons x xs ih =>
    by_cases hx : pred x = true
    · simp [List.find?_cons_of_pos, hx]
    · rw [List.cons_append, List.find?_cons_of_neg _ hx,
        List.find?_cons_of_neg _ hx]
      exact ih

/-- `updateAsset d` does not disturb lookups under a different key. -/
lemma lookupAsset_updateAsset_ne (q : Project) (d : Asset) (ty : AssetType)
    (id : String) (hne : ¬(d.type = ty ∧ d.id = id)) :
    (q.updateAsset d).lookupAsset ty id = q.lookupAsset ty id := by
  have hpredd : (d.type == ty && d.id == id) = false := by
    by_cases h1 : d.type = ty
    · have h2 : d.id ≠ id := fun h2 => hne ⟨h1, h2⟩
      simp [h1, h2]
    · simp [h1]
  unfold Project.updateAsset Project.lookupAsset
  by_cases h : q.assets.any (fun b => b.type == d.type && b.id == d.id) = true
  · simp only [h, if_true]
    clear h
    induction q.assets with
    | nil => rfl
    | cons x xs ih =>
      simp only [List.map_cons]
      by_cases hx : (x.type == d.type && x.id == d.id) = true
      · have hxty : x.type = d.type := by
          have := (Bool.and_eq_true _ _).mp hx
          simpa using this.1
        have hxid : x.id = d.id := by
          have := (Bool.and_eq_true _ _).mp hx
          simpa using this.2
        have hxpred : (x.type == ty && x.id == id) = false := by
          rw [hxty, hxid]; exact hpredd
        rw [if_pos hx]
        rw [List.find?_cons_of_neg (p := fun b : Asset => b.type == ty && b.id == id)
          _ (by simp [hpredd])]
        rw [List.find?_cons_of_neg (p := fun b : Asset => b.type == ty && b.id == id)
          _ (by simp [hxpred])]
        exact ih
      · rw [if_neg hx]
        by_cases hxp : (x.type == ty && x.id == id) = true
        · rw [List.find?_cons_of_pos
            (p := fun b : Asset => b.type == ty && b.id == id) _ hxp]
          rw [List.find?_cons_of_pos
            (p := fun b : Asset => b.type == ty && b.id == id) _ hxp]
        · rw [List.find?_cons_of_neg
            (p := fun b : Asset => b.type == ty && b.id == id) _ hxp]
          rw [List.find?_cons_of_neg
            (p := fun b : Asset => b.type == ty && b.id == id) _ hxp]
          exact ih
  · simp only [Bool.not_eq_true] at h
    simp only [h, if_false]
    exact find?_append_singleton_neg _ d hpredd q.assets

lemma redrawPreview_asset (f : FieldState) :
    (redrawPreview f).asset = f.asset := by
  unfold redrawPreview
  split <;> rfl

/-! ## Sample values used by the witness theorems -/

def bm0 : BitmapData := ⟨16, 16, [1]⟩

def bm1 : BitmapData := ⟨16, 16, [2]⟩

def asset0 : Asset :=
  { id := "a1", payload := .image bm0,
    meta := some { blockIDs := some ["b1"], displayName := none } }

def proj0 : Project :=
  { assets := [asset0], revision := 0, undoStack := [], redoStack := [],
    listeners := [] }

def field0 : FieldState :=
  { assetType := .image, fid := "f1", name := "SPRITE",
    sourceBlock := some "b1", isInFlyout := false, isGreyBlock := false,
    valueText := "", blockData := "a1", asset := some asset0,
    pendingEdit := false, undoRedoState := none, lightMode := false,
    preview := none }

def greyField0 : FieldState :=
  { field0 with isGreyBlock := true, valueText := "sprites.create(x)" }

/-! ## Claim theorems -/

/-- C6: `parseFieldOptions` is total and never fails: for every input,
including a missing options object, `initWidth` and `initHeight` are 16
unless the corresponding option string parses with `parseInt` (in which
case that number is used), and `disableResize` is `true` exactly when the
provided string is non-empty and either lowercases to `"true"` or equals
`"1"`. -/
theorem parseFieldOptions_spec (opts : Option FieldAssetEditorOptions) :
    (parseFieldOptions opts).initWidth =
      (match opts.bind (fun o => o.initWidth) with
       | none => 16
       | some s => (jsParseInt s).getD 16) ∧
    (parseFieldOptions opts).initHeight =
      (match opts.bind (fun o => o.initHeight) with
       | none => 16
       | some s => (jsParseInt s).getD 16) ∧
    ((parseFieldOptions opts).disableResize = true ↔
      ∃ s, opts.bind (fun o => o.disableResize) = some s ∧ s ≠ "" ∧
        (asciiLower s = "true" ∨ s = "1")) := by
  cases opts with
  | none => simp [parseFieldOptions]
  | some o =>
    obtain ⟨w, h, d⟩ := o
    cases d with
    | none => simp [parseFieldOptions, withDefault]
    | some s =>
      by_cases hs : s = ""
      · subst hs
        simp [parseFieldOptions, withDefault]
      · simp [parseFieldOptions, withDefault, hs]

/-- C2: `BlocklyTilemapChange.run(true)` performs the shared project's
redo together with the base `BlockChange` run, `run(false)` performs the
undo with the base run, and both fire one fresh `tilemap-revision` event
whose `recordUndo` flag is `false` and whose new value is the project's
revision after the undo/redo; `isNull()` holds exactly when the two
revisions coincide and the base `isNull()` holds. -/
theorem blocklyTilemapChange_run_isNull {σ : Type} (baseRun : Bool → σ → σ)
    (baseIsNull : Bool) (ev : BlocklyTilemapChange) (p : Project) (bs : σ) :
    tilemapChangeRun baseRun ev true p bs =
      (p.redo, baseRun true bs,
        [{ blockId := ev.blockId, element := "tilemap-revision",
           name := "revision", oldValue := .null,
           newValue := .num (Project.redo p).revision, oldRevision := 0,
           newRevision := 0, recordUndo := false }]) ∧
    tilemapChangeRun baseRun ev false p bs =
      (p.undo, baseRun false bs,
        [{ blockId := ev.blockId, element := "tilemap-revision",
           name := "revision", oldValue := .null,
           newValue := .num (Project.undo p).revision, oldRevision := 0,
           newRevision := 0, recordUndo := false }]) ∧
    (tilemapChangeIsNull baseIsNull ev = true ↔
      ev.oldRevision = ev.newRevision ∧ baseIsNull = true) := by
  refine ⟨rfl, rfl, ?_⟩
  simp [tilemapChangeIsNull]

/-- C4: when the store signals a change, a field with no pending edit
replaces its asset by the store lookup under the stored block-data id
(when that id is non-empty) and redraws the preview, while a field with a
pending edit ignores the notification entirely. -/
theorem assetChangeListener_spec (f : FieldState) (p : Project) :
    (f.pendingEdit = true → assetChangeListener f p = f) ∧
    (f.pendingEdit = false → f.blockData ≠ "" →
      assetChangeListener f p =
        redrawPreview
          { f with asset := p.lookupAsset f.assetType f.blockData } ∧
      (assetChangeListener f p).asset =
        p.lookupAsset f.assetType f.blockData) := by
  constructor
  · intro h
    simp [assetChangeListener, h]
  · intro h hbd
    constructor
    · simp [assetChangeListener, h, hbd]
    · simp [assetChangeListener, h, hbd, redrawPreview_asset]

/-- Witness for C4 at a concrete field and store. -/
theorem assetChangeListener_spec_witness :
    assetChangeListener field0 proj0 =
      redrawPreview
        { field0 with
          asset := (proj0.lookupAsset field0.assetType field0.blockData) } ∧
    (assetChangeListener field0 proj0).asset =
      proj0.lookupAsset field0.assetType field0.blockData :=
  (assetChangeListener_spec field0 proj0).2 rfl (by decide)

/-- C7: a grey field preserves the decompiled text: `getValue` returns the
HTML-unescaped value text unchanged, `showEditor_` returns immediately
leaving the field and the project untouched and opening no editor, and
`getDisplayText_` truncates the unescaped text at its first `(` and
appends `"(...)"`. -/
theorem greyBlock_spec (unesc : String → String)
    (getValueText : Option Asset → String) (isAssetUsed : TileRef → Bool)
    (f : FieldState) (p : Project) (h : f.isGreyBlock = true) :
    getValue unesc getValueText f = unesc f.valueText ∧
    showEditor isAssetUsed f p = some (none, f, p) ∧
    (∀ i : Nat, (unesc f.valueText).data.findIdx? (· = '(') = some i →
      getDisplayText unesc f =
        String.mk ((unesc f.valueText).data.take i) ++ "(...)") := by
  refine ⟨?_, ?_, ?_⟩
  · simp [getValue, h]
  · simp [showEditor, h]
  · intro i hi
    unfold getDisplayText jsIndexOfChar jsSubstrFrom0
    simp only [hi]
    cases i with
    | zero => simp
    | succ n =>
      have hn : ¬((n : Int) + 1 ≤ 0) := by omega
      simp [hn]

/-- Witness for C7 at a concrete grey field. -/
theorem greyBlock_spec_witness :
    getValue id (fun _ => "") greyField0 = id greyField0.valueText ∧
    showEditor (fun _ => false) greyField0 proj0 =
      some (none, greyField0, proj0) ∧
    (∀ i : Nat,
      (id greyField0.valueText).data.findIdx? (· = '(') = some i →
      getDisplayText id greyField0 =
        String.mk ((id greyField0.valueText).data.take i) ++ "(...)") :=
  greyBlock_spec id (fun _ => "") (fun _ => false) greyField0 proj0 rfl

/-- C3: the field covers exactly the four asset types: opening the editor
selects the image editor for images and tiles, the animation editor for
animations, and the tilemap editor for tilemaps (whose tileset gets the
project tiles merged in), and redrawing the preview renders an image URI
from the bitmap for images and tiles, from the first frame for
animations, and from the tilemap data for tilemaps. -/
theorem assetType_dispatch (isAssetUsed : TileRef → Bool) (f : FieldState)
    (p : Project) (a : Asset) (hg : f.isGreyBlock = false)
    (ha : f.asset = some a) :
    (∀ b, a.payload = .image b →
      showEditor isAssetUsed f p = some (some "image-editor", f, p.pushUndo) ∧
      (redrawPreview f).preview =
        some (bitmapToImageURI b PREVIEW_WIDTH f.lightMode)) ∧
    (∀ b, a.payload = .tile b →
      showEditor isAssetUsed f p = some (some "image-editor", f, p.pushUndo) ∧
      (redrawPreview f).preview =
        some (bitmapToImageURI b PREVIEW_WIDTH f.lightMode)) ∧
    (∀ frames iv, a.payload = .animation frames iv →
      showEditor isAssetUsed f p =
        some (some "animation-editor", f, p.pushUndo) ∧
      ∀ b, frames.head? = some b →
        (redrawPreview f).preview =
          some (bitmapToImageURI b PREVIEW_WIDTH f.lightMode)) ∧
    (∀ d, a.payload = .tilemap d →
      showEditor isAssetUsed f p =
        some (some "tilemap-editor",
          { f with
            asset := some
              { a with
                payload := AssetPayload.tilemap (tilemapMerge isAssetUsed (getProjectTiles p d.tileset.tileWidth) d) } },
          p.pushUndo) ∧
      (redrawPreview f).preview =
        some (tilemapToImageURI d PREVIEW_WIDTH f.lightMode)) := by
  refine ⟨?_, ?_, ?_, ?_⟩
  · intro b hb
    constructor
    · simp [showEditor, hg, ha, hb]
    · simp [redrawPreview, hg, ha, previewOf, hb]
  · intro b hb
    constructor
    · simp [showEditor, hg, ha, hb]
    · simp [redrawPreview, hg, ha, previewOf, hb]
  · intro frames iv hb
    constructor
    · simp [showEditor, hg, ha, hb]
    · intro b hhead
      simp [redrawPreview, hg, ha, previewOf, hb, hhead]
  · intro d hb
    constructor
    · simp [showEditor, hg, ha, hb]
    · simp [redrawPreview, hg, ha, previewOf, hb]

/-- Witness for C3: the image conjunct at a concrete image field. -/
theorem assetType_dispatch_witness :
    showEditor (fun _ => false) field0 proj0 =
      some (some "image-editor", field0, proj0.pushUndo) ∧
    (redrawPreview field0).preview =
      some (bitmapToImageURI bm0 PREVIEW_WIDTH field0.lightMode) :=
  (assetType_dispatch (fun _ => false) field0 proj0 asset0 rfl rfl).1 bm0 rfl

/-- The combined effect of `updateAssetMeta` when an asset and a source
block are present: the field ends with an asset `a'` whose payload is the
original's, whose metadata and block-id list exist and record the source
block, with the field's block data set to `a'.id` and `a'` written into
the store; `a'` is the original (meta-ensured, possibly with the id
pushed) except in the clone case, where it is a fresh-id duplicate whose
id list is exactly the source block and the original's store entry is
untouched. -/
lemma updateAssetMeta_write (ws : List String) (f : FieldState)
    (p : Project) (a : Asset) (sb : String) (ha : f.asset = some a)
    (hsb : f.sourceBlock = some sb) :
    ∃ a' : Asset,
      (updateAssetMeta ws f p).1 =
        { f with asset := some a', blockData := a'.id } ∧
      a'.payload = a.payload ∧
      (∃ m, a'.meta = some m ∧ m.blockIDs = some (blockIDsOf a')) ∧
      (updateAssetMeta ws f p).2.lookupAsset a'.type a'.id = some a' ∧
      (blockIDsOf a').count sb =
        (if sb ∈ blockIDsOf a then (blockIDsOf a).count sb else 1) ∧
      (sb ∈ blockIDsOf a → a' = ensureMeta a) ∧
      (a'.id = a.id ∨ a'.id = freshId p (ensureMeta a)) ∧
      ((sb ∉ blockIDsOf a ∧ displayNameFalsy a = true ∧
          (blockIDsOf a).any (ws.contains ·) = true) →
        a'.id ≠ a.id ∧ blockIDsOf a' = [sb] ∧
        (updateAssetMeta ws f p).2.lookupAsset a.type a.id =
          p.lookupAsset a.type a.id) ∧
      (¬(sb ∉ blockIDsOf a ∧ displayNameFalsy a = true ∧
          (blockIDsOf a).any (ws.contains ·) = true) →
        a'.id = a.id) := by
  have hA_id := ensureMeta_id a
  have hA_pay := ensureMeta_payload a
  have hA_ids := blockIDsOf_ensureMeta a
  have hA_dn := displayNameFalsy_ensureMeta a
  simp only [updateAssetMeta, ha, hsb]
  by_cases hmem : sb ∈ blockIDsOf (ensureMeta a)
  · have hmem' : sb ∈ blockIDsOf a := hA_ids ▸ hmem
    rw [if_pos hmem]
    refine ⟨ensureMeta a, rfl, hA_pay, ?_, ?_, ?_, fun _ => rfl,
      Or.inl hA_id, ?_, fun _ => hA_id⟩
    · obtain ⟨m, hm1, hm2⟩ := ensureMeta_blockIDs a
      exact ⟨m, hm1, by rw [hm2, hA_ids]⟩
    · exact lookupAsset_updateAsset p (ensureMeta a)
    · rw [if_pos hmem', hA_ids]
    · intro hc
      exact absurd hmem' hc.1
  · have hmem' : sb ∉ blockIDsOf a := fun h => hmem (hA_ids ▸ h)
    rw [if_neg hmem]
    by_cases hdup : blockIDsOf (ensureMeta a) ≠ [] ∧
        displayNameFalsy (ensureMeta a) = true ∧
        (blockIDsOf (ensureMeta a)).any (ws.contains ·) = true
    · rw [if_pos hdup]
      have hd1id : (p.duplicateAsset (ensureMeta a)).1.id =
          freshId p (ensureMeta a) := rfl
      have hdid : (setBlockIDs (p.duplicateAsset (ensureMeta a)).1 [sb]).id =
          freshId p (ensureMeta a) := by rw [setBlockIDs_id, hd1id]
      have hne_aid :
          (setBlockIDs (p.duplicateAsset (ensureMeta a)).1 [sb]).id ≠
            a.id := by
        rw [hdid, ← hA_id]
        exact fun h => freshId_ne_self p (ensureMeta a) h.symm
      refine ⟨setBlockIDs (p.duplicateAsset (ensureMeta a)).1 [sb], rfl,
        ?_, ?_, ?_, ?_, ?_, Or.inr hdid, ?_, ?_⟩
      · rw [setBlockIDs_payload]
        exact hA_pay
      · obtain ⟨m, hm1, hm2⟩ :=
          setBlockIDs_meta (p.duplicateAsset (ensureMeta a)).1 [sb]
        exact ⟨m, hm1, by rw [hm2, blockIDsOf_setBlockIDs]⟩
      · exact lookupAsset_updateAsset (p.duplicateAsset (ensureMeta a)).2
          (setBlockIDs (p.duplicateAsset (ensureMeta a)).1 [sb])
      · rw [blockIDsOf_setBlockIDs, if_neg hmem']
        simp
      · intro hc
        exact absurd hc hmem'
      · intro _
        refine ⟨hne_aid, blockIDsOf_setBlockIDs _ _, ?_⟩
        have hstep1 :
            Project.lookupAsset
              ((p.duplicateAsset (ensureMeta a)).2.updateAsset
                (setBlockIDs (p.duplicateAsset (ensureMeta a)).1 [sb]))
              a.type a.id =
            (p.duplicateAsset (ensureMeta a)).2.lookupAsset a.type a.id :=
          lookupAsset_updateAsset_ne _ _ _ _ (fun h => hne_aid h.2)
        have hd1ne : (p.duplicateAsset (ensureMeta a)).1.id ≠ a.id := by
          rw [hd1id, ← hA_id]
          exact fun h => freshId_ne_self p (ensureMeta a) h.symm
        have hstep2 :
            (p.duplicateAsset (ensureMeta a)).2.lookupAsset a.type a.id =
              p.lookupAsset a.type a.id := by
          show ((p.assets ++ [(p.duplicateAsset (ensureMeta a)).1]).find? _)
            = (p.assets.find? _)
          exact find?_append_singleton_neg _ _ (by simp [hd1ne]) p.assets
        rw [hstep1, hstep2]
      · intro hnd
        exfalso
        exact hnd ⟨hmem', by rw [← hA_dn]; exact hdup.2.1,
          by rw [← hA_ids]; exact hdup.2.2⟩
    · rw [if_neg hdup]
      refine ⟨setBlockIDs (ensureMeta a) (blockIDsOf (ensureMeta a) ++ [sb]),
        rfl, ?_, ?_, ?_, ?_, ?_, Or.inl (by rw [setBlockIDs_id, hA_id]),
        ?_, ?_⟩
      · rw [setBlockIDs_payload]
        exact hA_pay
      · obtain ⟨m, hm1, hm2⟩ :=
          setBlockIDs_meta (ensureMeta a) (blockIDsOf (ensureMeta a) ++ [sb])
        exact ⟨m, hm1, by rw [hm2, blockIDsOf_setBlockIDs]⟩
      · exact lookupAsset_updateAsset p _
      · rw [blockIDsOf_setBlockIDs, if_neg hmem', List.count_append,
          hA_ids, List.count_eq_zero.mpr hmem']
        simp
      · intro hc
        exact absurd hc hmem'
      · intro hc
        exfalso
        apply hdup
        have hanyA : (blockIDsOf (ensureMeta a)).any (ws.contains ·)
            = true := by rw [hA_ids]; exact hc.2.2
        refine ⟨?_, by rw [hA_dn]; exact hc.2.1, hanyA⟩
        intro h0
        rw [h0] at hanyA
        simp at hanyA
      · intro _
        rw [setBlockIDs_id, hA_id]

/-- C5: after `updateAssetMeta` with a source block present (and block-id
lists that never hold a duplicate entry, which this code preserves), the
asset's metadata and `blockIDs` exist and hold the source block's id
exactly once — an id already present is never pushed again — the field's
block data is the asset's id, and the asset is written back to the shared
store; when the asset is temporary and its `blockIDs` already reference
another live workspace block, the id is recorded on a fresh duplicate and
the original's store entry is left untouched. -/
theorem updateAssetMeta_spec (ws : List String) (f : FieldState)
    (p : Project) (a : Asset) (sb : String) (ha : f.asset = some a)
    (hsb : f.sourceBlock = some sb)
    (hcount : (blockIDsOf a).count sb ≤ 1) :
    ∃ a' : Asset,
      (updateAssetMeta ws f p).1 =
        { f with asset := some a', blockData := a'.id } ∧
      (∃ m, a'.meta = some m ∧ m.blockIDs = some (blockIDsOf a') ∧
        (blockIDsOf a').count sb = 1) ∧
      (updateAssetMeta ws f p).2.lookupAsset a'.type a'.id = some a' ∧
      ((sb ∉ blockIDsOf a ∧ displayNameFalsy a = true ∧
          (blockIDsOf a).any (ws.contains ·) = true) →
        a'.id ≠ a.id ∧ blockIDsOf a' = [sb] ∧
        (updateAssetMeta ws f p).2.lookupAsset a.type a.id =
          p.lookupAsset a.type a.id) := by
  obtain ⟨a', h1, hpay, ⟨m, hm1, hm2⟩, hlook, hcnt, hcontains, hidor,
    hdup, hndup⟩ := updateAssetMeta_write ws f p a sb ha hsb
  refine ⟨a', h1, ⟨m, hm1, hm2, ?_⟩, hlook, hdup⟩
  rw [hcnt]
  by_cases hmem : sb ∈ blockIDsOf a
  · rw [if_pos hmem]
    have := List.count_pos_iff.mpr hmem
    omega
  · rw [if_neg hmem]

/-- Witness for C5 at a concrete field whose asset already records the
source block. -/
theorem updateAssetMeta_spec_witness :
    ∃ a' : Asset,
      (updateAssetMeta ["b1"] field0 proj0).1 =
        { field0 with asset := some a', blockData := a'.id } ∧
      (∃ m, a'.meta = some m ∧ m.blockIDs = some (blockIDsOf a') ∧
        (blockIDsOf a').count "b1" = 1) ∧
      (updateAssetMeta ["b1"] field0 proj0).2.lookupAsset a'.type a'.id =
        some a' ∧
      (("b1" ∉ blockIDsOf asset0 ∧ displayNameFalsy asset0 = true ∧
          (blockIDsOf asset0).any (["b1"].contains ·) = true) →
        a'.id ≠ asset0.id ∧ blockIDsOf a' = ["b1"] ∧
        (updateAssetMeta ["b1"] field0 proj0).2.lookupAsset asset0.type
            asset0.id =
          proj0.lookupAsset asset0.type asset0.id) :=
  updateAssetMeta_spec ["b1"] field0 proj0 asset0 "b1" rfl rfl (by decide)

lemma updateAssetListener_lookup (f : FieldState) (p : Project)
    (ty : AssetType) (id : String) :
    (updateAssetListener f p).lookupAsset ty id = p.lookupAsset ty id := by
  unfold updateAssetListener Project.removeChangeListener
    Project.addChangeListener Project.lookupAsset
  cases f.asset <;> rfl

lemma updateAssetListener_revision (f : FieldState) (p : Project) :
    (updateAssetListener f p).revision = p.revision := by
  unfold updateAssetListener Project.removeChangeListener
    Project.addChangeListener
  cases f.asset <;> rfl

/-- C8: all of the field's asset operations act on the one shared project:
whatever asset one field writes through `updateAssetMeta`, any other field
configured with that asset's type and id observes through its
change-listener path as the very same stored asset — no field keeps a
private copy of the store. -/
theorem sharedProject_spec (ws : List String) (f1 : FieldState)
    (p : Project) (a : Asset) (sb : String) (ha : f1.asset = some a)
    (hsb : f1.sourceBlock = some sb) (hid : a.id ≠ "") :
    ∃ a' : Asset,
      (updateAssetMeta ws f1 p).1.asset = some a' ∧
      (updateAssetMeta ws f1 p).2.lookupAsset a'.type a'.id = some a' ∧
      ∀ f2 : FieldState, f2.pendingEdit = false →
        f2.assetType = a'.type → f2.blockData = a'.id →
        (assetChangeListener f2 (updateAssetMeta ws f1 p).2).asset =
          some a' := by
  obtain ⟨a', h1, hpay, hmeta, hlook, hcnt, hcontains, hidor, hdup,
    hndup⟩ := updateAssetMeta_write ws f1 p a sb ha hsb
  have hid' : a'.id ≠ "" := by
    rcases hidor with h | h
    · rw [h]; exact hid
    · rw [h]; exact freshId_pos p (ensureMeta a)
  refine ⟨a', by rw [h1], hlook, ?_⟩
  intro f2 hpe hty hbd
  have hbd' : f2.blockData ≠ "" := by rw [hbd]; exact hid'
  rw [assetChangeListener, if_neg (by rw [hpe]; exact Bool.false_ne_true),
    if_pos hbd', redrawPreview_asset]
  show (updateAssetMeta ws f1 p).2.lookupAsset f2.assetType f2.blockData
    = some a'
  rw [hty, hbd]
  exact hlook

/-- Witness for C8 at a concrete writing field and observing field. -/
theorem sharedProject_spec_witness :
    ∃ a' : Asset,
      (updateAssetMeta ["b1"] field0 proj0).1.asset = some a' ∧
      (updateAssetMeta ["b1"] field0 proj0).2.lookupAsset a'.type a'.id =
        some a' ∧
      ∀ f2 : FieldState, f2.pendingEdit = false →
        f2.assetType = a'.type → f2.blockData = a'.id →
        (assetChangeListener f2 (updateAssetMeta ["b1"] field0 proj0).2).asset
          = some a' :=
  sharedProject_spec ["b1"] field0 proj0 asset0 "b1" rfl rfl (by decide)

lemma previewOf_ensureMeta (light : Bool) (a : Asset) :
    previewOf light (ensureMeta a) = previewOf light a :=
  previewOf_congr light _ _ (ensureMeta_payload a)

/-- C1: when the hidden editor view returns a result that differs from the
field's current asset (per `assetEquals`), the field adopts the result
(with metadata ensured) as its asset, writes it into the shared store,
redraws its preview, and fires one `BlocklyTilemapChange` carrying the old
field value, the new field value, the store revision taken before the
update and the store revision after it; when the result equals the
current asset, field, store and event stream are all left unchanged. -/
theorem onHide_spec (assetEquals : Option Asset → Asset → Bool)
    (getValueText : Option Asset → String) (unesc : String → String)
    (pd : String) (ws : List String) (f : FieldState) (p : Project)
    (a r : Asset) (sb : String) (hg : f.isGreyBlock = false)
    (ha : f.asset = some a) (hsb : f.sourceBlock = some sb)
    (hmem : sb ∈ blockIDsOf r) :
    (assetEquals (some a) r = true →
      onHide assetEquals getValueText unesc pd true ws (some r) f p =
        (f, p, [])) ∧
    (assetEquals (some a) r = false →
      (onHide assetEquals getValueText unesc pd true ws (some r) f
          p).1.asset = some (ensureMeta r) ∧
      (onHide assetEquals getValueText unesc pd true ws (some r) f
          p).1.preview = previewOf f.lightMode r ∧
      (onHide assetEquals getValueText unesc pd true ws (some r) f
          p).2.1.lookupAsset r.type r.id = some (ensureMeta r) ∧
      (onHide assetEquals getValueText unesc pd true ws (some r) f
          p).2.2 =
        [{ blockId := sb, element := "field", name := f.name,
           oldValue := .str (getValueText (some a)),
           newValue := .str (getValueText (some (ensureMeta r))),
           oldRevision := p.revision,
           newRevision := (onHide assetEquals getValueText unesc pd true
             ws (some r) f p).2.1.revision,
           recordUndo := true }]) := by
  constructor
  · intro heq
    simp [onHide, ha, heq]
  · intro heq
    have hcond : ¬(assetEquals f.asset r = true) := by
      rw [ha, heq]
      exact Bool.false_ne_true
    have hf1a :
        (({ f with pendingEdit := true, asset := some r } :
          FieldState)).asset = some r := rfl
    have hf1sb :
        (({ f with pendingEdit := true, asset := some r } :
          FieldState)).sourceBlock = some sb := hsb
    obtain ⟨a', h1, hpay, hmeta, hlook, hcnt, hcontains, hidor, hdup,
      hndup⟩ := updateAssetMeta_write ws
        { f with pendingEdit := true, asset := some r }
        (updateAssetListener
          { f with pendingEdit := true, asset := some r } p) r sb hf1a
        hf1sb
    have haer : a' = ensureMeta r := hcontains hmem
    subst haer
    rw [ensureMeta_type, ensureMeta_id] at hlook
    have h1' : (updateAssetMeta ws
        { f with pendingEdit := true, asset := some r }
        (updateAssetListener
          { f with pendingEdit := true, asset := some r } p)).1 =
        { f with
          pendingEdit := true, asset := some (ensureMeta r),
          blockData := (ensureMeta r).id } := by rw [h1]
    have hredraw : redrawPreview
        { f with
          pendingEdit := true, asset := some (ensureMeta r),
          blockData := (ensureMeta r).id } =
        { f with
          pendingEdit := true, asset := some (ensureMeta r),
          blockData := (ensureMeta r).id,
          preview := previewOf f.lightMode r } := by
      simp [redrawPreview, hg, previewOf_ensureMeta]
    have hout : onHide assetEquals getValueText unesc pd true ws (some r)
        f p =
        ({ f with
           pendingEdit := false, asset := some (ensureMeta r),
           blockData := (ensureMeta r).id,
           preview := previewOf f.lightMode r,
           undoRedoState := some pd },
         (updateAssetMeta ws
           { f with pendingEdit := true, asset := some r }
           (updateAssetListener
             { f with pendingEdit := true, asset := some r } p)).2,
         [{ blockId := sb, element := "field", name := f.name,
            oldValue := .str (getValueText (some a)),
            newValue := .str (getValueText (some (ensureMeta r))),
            oldRevision := p.revision,
            newRevision := (updateAssetMeta ws
              { f with pendingEdit := true, asset := some r }
              (updateAssetListener
                { f with pendingEdit := true, asset := some r }
                p)).2.revision,
            recordUndo := true }]) := by
      simp only [onHide]
      rw [if_neg hcond]
      rw [h1', hredraw]
      simp [getValue, hg, ha, hsb]
    refine ⟨by rw [hout], by rw [hout], ?_, by rw [hout]⟩
    rw [hout]
    exact hlook

def asset1 : Asset :=
  { id := "a1", payload := .image bm1,
    meta := some { blockIDs := some ["b1"], displayName := none } }

/-- Witness for C1: a concrete edit that changes the asset's bitmap. -/
theorem onHide_spec_witness :
    (onHide (fun o x => o == some x) (fun _ => "v") id "pd" true ["b1"]
        (some asset1) field0 proj0).1.asset = some (ensureMeta asset1) ∧
    (onHide (fun o x => o == some x) (fun _ => "v") id "pd" true ["b1"]
        (some asset1) field0 proj0).1.preview =
      previewOf field0.lightMode asset1 ∧
    (onHide (fun o x => o == some x) (fun _ => "v") id "pd" true ["b1"]
        (some asset1) field0 proj0).2.1.lookupAsset asset1.type asset1.id =
      some (ensureMeta asset1) ∧
    (onHide (fun o x => o == some x) (fun _ => "v") id "pd" true ["b1"]
        (some asset1) field0 proj0).2.2 =
      [{ blockId := "b1", element := "field", name := field0.name,
         oldValue := .str "v", newValue := .str "v",
         oldRevision := proj0.revision,
         newRevision := (onHide (fun o x => o == some x) (fun _ => "v")
           id "pd" true ["b1"] (some asset1) field0 proj0).2.1.revision,
         recordUndo := true }] :=
  (onHide_spec (fun o x => o == some x) (fun _ => "v") id "pd" ["b1"]
    field0 proj0 asset0 asset1 "b1" rfl rfl rfl (by decide)).2 (by decide)

end FieldAsset
